import Mathlib

/-!
Shallow embedding of the Gravity-Launcher instance supervisor and log
broadcast subsystem (src/unnamed/part_001, src/server/utils/wsHelper.js,
src/server/routes/dependencies.js), together with theorems settling the
frozen specification claims.

Conventions of the embedding:
* JS objects used as string-keyed maps (`runningProcesses`, `logHistory`,
  `terminalLogs`) are modelled as `List String` (the key set) or as
  association lists `List (String × List String)`; object keys are unique,
  which surfaces as `Nodup` hypotheses where a theorem needs it.
* The on-disk filesystem is a partial map `String → Option String` from
  file paths to file contents.
* Spawned OS processes are opaque handles; the side effects a route
  performs (kill signals, spawn calls, WebSocket broadcasts, Redis stop
  requests) are recorded explicitly in the outcome structures so that
  theorems can speak about them.
-/

namespace GravityLauncher

/-! ### Log buffers (part_001 lines 60-66, 944-945; wsHelper.js lines 72-79)

All three buffer kinds push the new line and then, if the length exceeds
the capacity, `shift()` exactly one element off the front. -/

/-- The push-then-shift step shared by all bounded log buffers. -/
def appendBounded (cap : Nat) (buf : List String) (line : String) : List String :=
  let b := buf ++ [line]
  if cap < b.length then b.tail else b

/-- `broadcastLog`'s history append (part_001 lines 60-66): capacity 1000. -/
def broadcastLogAppend : List String → String → List String :=
  appendBounded 1000

/-- `broadcastGlobalLog`'s history append (wsHelper.js lines 72-79): capacity 500. -/
def broadcastGlobalLogAppend : List String → String → List String :=
  appendBounded 500

/-- `broadcastTerminalOutput`'s history append (part_001 lines 943-945): capacity 500. -/
def broadcastTerminalAppend : List String → String → List String :=
  appendBounded 500

/-! ### WebSocket messages and the connection replay (wsHelper.js lines 8-49,
part_001 lines 20-45) -/

/-- The message shapes sent over the observer WebSocket channel. -/
inductive Msg where
  | welcome
  | globalLog (data : String)
  | log (instanceId : String) (data : String)
  | terminalOutput (instanceId : String) (data : String)
  | terminalOpened (instanceId : String)
  | status (instanceId : String) (st : String)
deriving DecidableEq

/-- Everything `wss.on('connection')` sends to a freshly connected observer,
in order: the WELCOME message, the global log history (wsHelper.js lines
21-30), then the registered connection handler of part_001 (lines 20-45):
each instance's log history and each terminal's history plus an open marker.
The model assumes the observer socket stays OPEN throughout the replay
(the `readyState` guards in the source only skip sends to a socket that
already disconnected). -/
def replayOnConnect (globalHistory : List String)
    (logHistory : List (String × List String))
    (terminalLogs : List (String × List String))
    (terminalOpen : String → Bool) : List Msg :=
  Msg.welcome ::
    (globalHistory.map Msg.globalLog
      ++ logHistory.flatMap (fun p => p.2.map (Msg.log p.1))
      ++ terminalLogs.flatMap (fun p =>
          p.2.map (Msg.terminalOutput p.1)
            ++ (if terminalOpen p.1 then [Msg.terminalOpened p.1] else [])))

/-- A connected observer's full message stream: the connection handler runs
to completion on the single control thread before any later broadcast is
delivered, so the session is the synchronous replay followed by whatever is
broadcast after the subscription. -/
def observerSession (globalHistory : List String)
    (logHistory : List (String × List String))
    (terminalLogs : List (String × List String))
    (terminalOpen : String → Bool) (live : List Msg) : List Msg :=
  replayOnConnect globalHistory logHistory terminalLogs terminalOpen ++ live

/-- Extract the payload of a per-instance LOG message for instance `i`. -/
def logDataFor (i : String) : Msg → Option String
  | Msg.log j d => if j = i then some d else none
  | _ => none

/-- Extract the payload of a GLOBAL_LOG message. -/
def globalData : Msg → Option String
  | Msg.globalLog d => some d
  | _ => none

/-! ### Supervisor runtime state (part_001 lines 13-17, 89-316) -/

/-- The supervisor-owned mutable state relevant to lifecycle claims:
the key set of `runningProcesses`, the persisted
`settings.redisKeepAlive` flag, and a counter of Redis stop requests
issued by the exit callback (the `http.request` at lines 271-279). -/
structure SupState where
  running : List String
  keepAlive : Bool
  redisStopRequests : Nat
deriving DecidableEq

/-- The `child.on('close')` exit callback of `/start/:id`
(part_001 lines 254-286): delete the `runningProcesses` entry, then, if
the remaining running count is 0 and `settings.redisKeepAlive` is not
`true`, issue one Redis stop request. (The callback's log/status
broadcasts do not touch this state and are modelled with the routes.) -/
def closeHandler (s : SupState) (id : String) : SupState :=
  let running' := s.running.erase id
  if running'.length = 0 ∧ s.keepAlive = false then
    { s with running := running', redisStopRequests := s.redisStopRequests + 1 }
  else
    { s with running := running' }

/-! ### Instance records and the effective-port resolver
(part_001 lines 493-515) -/

/-- Declared instance type (`instance.type`, defaulting to Yunzai). -/
inductive IType where
  | yunzai
  | gsuid
deriving DecidableEq

/-- A registry record out of `data.json` with the fields the modelled
routes read. `port = none` models an absent/undefined `port` field. -/
structure InstanceRec where
  id : String
  name : String
  path : String
  port : Option String
  type : IType
deriving DecidableEq

/-- A filesystem snapshot: file path → file content (when the file exists). -/
abbrev Fs := String → Option String

/-- `path.join(instance.path, 'config', 'config', 'server.yaml')`
(part_001 line 501); the separator choice is immaterial to the model. -/
def serverYamlPath (instPath : String) : String :=
  instPath ++ "/config/config/server.yaml"

/-- A character matched by the JS regex class `\s` (whitespace). -/
def isJsWhitespace (c : Char) : Bool :=
  c = ' ' ∨ c = '\t' ∨ c = '\n' ∨ c = '\r' ∨ c = '\x0b' ∨ c = '\x0c'

/-- Longest prefix of decimal digits, as matched by a greedy `\d+`. -/
def digitsPrefix : List Char → List Char
  | [] => []
  | c :: cs => if c.isDigit then c :: digitsPrefix cs else []

/-- Drop a greedy run of `\s` characters. -/
def skipJsWhitespace : List Char → List Char
  | [] => []
  | c :: cs => if isJsWhitespace c then skipJsWhitespace cs else c :: cs

/-- `content.match(/port:\s*(\d+)/)` (part_001 line 504): scan for the first
position where the literal `port:` is followed by optional whitespace and at
least one digit, and return the digit run. Backtracking inside `\s*` cannot
produce a match this scan misses, because a shorter whitespace run still
ends in a non-digit whitespace character. -/
def findPortMatch : List Char → Option String
  | [] => none
  | c :: cs =>
    if c = 'p' ∧ cs.take 4 = ['o', 'r', 't', ':'] then
      let ds := digitsPrefix (skipJsWhitespace (cs.drop 4))
      if ds = [] then findPortMatch cs else some (String.mk ds)
    else findPortMatch cs

/-- `getInstancePort(instance)` (part_001 lines 493-515): the explicit
`port` field if set, else the first `port:` number found in the instance's
`config/config/server.yaml`, else the constant `'2536'`. Note that the
instance's declared type is never consulted. -/
def getInstancePort (fs : Fs) (inst : InstanceRec) : String :=
  match inst.port with
  | some p => p
  | none =>
    match fs (serverYamlPath inst.path) with
    | some content =>
      match findPortMatch content.data with
      | some p => p
      | none => "2536"
    | none => "2536"

/-! ### Start route guards (part_001 lines 89-216) -/

/-- Synchronous failure modes of `/start/:id`. -/
inductive StartErr where
  | notFound
  | alreadyRunning
  | pathMissing
deriving DecidableEq

/-- What `/start/:id` did: the synchronous response, the resulting
`runningProcesses` key set, and whether an OS process was spawned. -/
structure StartOutcome where
  result : Except StartErr Unit
  running : List String
  spawned : Bool

/-- `/start/:id` up to and including the spawn (part_001 lines 89-216):
404 if the id is not registered (line 94); `Already running` if a live
`runningProcesses[id]` exists (line 95); environment assembly has no effect
on this state; `Instance path not found` if the instance's root path does
not exist (lines 170-175); otherwise spawn and record the child with
status `starting`. -/
def startRoute (registry : List InstanceRec) (pathExists : String → Bool)
    (running : List String) (id : String) : StartOutcome :=
  match registry.find? (fun i => i.id == id) with
  | none => ⟨Except.error StartErr.notFound, running, false⟩
  | some inst =>
    if id ∈ running then
      ⟨Except.error StartErr.alreadyRunning, running, false⟩
    else if pathExists inst.path = false then
      ⟨Except.error StartErr.pathMissing, running, false⟩
    else
      ⟨Except.ok (), id :: running, true⟩

/-! ### Stop route (part_001 lines 292-316) -/

/-- Synchronous failure mode of `/stop/:id`. -/
inductive StopErr where
  | notRunning
deriving DecidableEq

/-- What `/stop/:id` did: the synchronous response, the resulting state,
the ids whose process trees received a kill, and the broadcasts emitted
before the route returned, in emission order. -/
structure StopOutcome where
  result : Except StopErr Unit
  state : SupState
  killed : List String
  events : List Msg

/-- `/stop/:id` (part_001 lines 292-316): `Not running` if there is no
live entry; otherwise send the tree kill (taskkill on Windows, SIGKILL
elsewhere), synchronously delete the `runningProcesses` entry, and
broadcast the `stopped` status event and the textual marker before
responding. The route itself never issues a Redis stop request. -/
def stopRoute (s : SupState) (id : String) : StopOutcome :=
  if id ∈ s.running then
    ⟨Except.ok (), { s with running := s.running.erase id }, [id],
      [Msg.status id "stopped", Msg.log id "--- Instance Stopped ---"]⟩
  else
    ⟨Except.error StopErr.notRunning, s, [], []⟩

/-! ### First-output liveness signal (part_001 lines 215-245) -/

/-- An output event from a spawned child process. -/
inductive OutEvent where
  | stdout (data : String)
  | stderr (data : String)
deriving DecidableEq

/-- The per-instance status as observed through status broadcasts. -/
inductive InstStatus where
  | starting
  | running
deriving DecidableEq

/-- The `hasStarted` flag after one output callback (part_001 lines
220-245): the stdout handler sets it unconditionally — the `if (text)`
guard at line 225 only gates the log broadcast, not the flip at lines
232-235 — while the stderr handler never touches it. -/
def handleOutput (hasStarted : Bool) (e : OutEvent) : Bool :=
  match e with
  | OutEvent.stdout _ => true
  | OutEvent.stderr _ => hasStarted

/-- `String.prototype.trim()`: strip whitespace from both ends. -/
def jsTrim (s : String) : String :=
  String.mk (((s.data.dropWhile isJsWhitespace).reverse.dropWhile isJsWhitespace).reverse)

/-- The text a handler considers logging for an event:
`data.toString('utf8').trim()` (lines 224 and 239). -/
def trimmedText : OutEvent → String
  | OutEvent.stdout d => jsTrim d
  | OutEvent.stderr d => jsTrim d

/-- The broadcast status after a sequence of output events, starting from
the `starting` broadcast at line 216 with `hasStarted = false`. -/
def statusAfter (events : List OutEvent) : InstStatus :=
  if events.foldl handleOutput false then InstStatus.running else InstStatus.starting

/-! ### Create route port/name checks (part_001 lines 557-639, 765-782) -/

/-- `String(inst.port) === String(instancePort)` (line 630): an absent
port field stringifies to `"undefined"`, which never equals a candidate
port string (candidates are digit strings). -/
def portFieldMatches (candidate : String) (i : InstanceRec) : Bool :=
  match i.port with
  | some p => p == candidate
  | none => false

/-- Synchronous rejections of `/create` relevant to the registry claims.
The environment pre-flight checks (Node/Git/uv present, name character
set) precede these and can only reject without touching the registry; they
are outside the modelled state. -/
inductive CreateErr where
  | nameConflict (name : String)
  | portConflict (name : String)
  | dirExists
deriving DecidableEq

/-- `/create` registry logic (part_001 lines 618-639 and 765-782): reject
a duplicate name; reject if any existing record's explicit `port` field
stringifies to the candidate port; reject if the install directory exists;
otherwise append the new record, whose `port` field is set to the
candidate. The installation steps between the checks and the registration
do not touch the registry. -/
def createRoute (reg : List InstanceRec) (dirExists : Bool)
    (newId name instancePort : String) (ty : IType) : Except CreateErr (List InstanceRec) :=
  if reg.any (fun i => i.name == name) then
    Except.error (CreateErr.nameConflict name)
  else
    match reg.find? (portFieldMatches instancePort) with
    | some i => Except.error (CreateErr.portConflict i.name)
    | none =>
      if dirExists then
        Except.error CreateErr.dirExists
      else
        Except.ok (reg ++ [⟨newId, name, "instances/" ++ name, some instancePort, ty⟩])

/-! ### Config-update route, port branch (part_001 lines 1407-1523) -/

/-- Synchronous rejections of `/config/:id` with a port in the body. -/
inductive UpdateErr where
  | notFound
  | portConflict (name : String)
  | systemPortInUse
deriving DecidableEq

/-- What `/config/:id` did: response, resulting registry, resulting
filesystem. -/
structure UpdateOutcome where
  result : Except UpdateErr Unit
  reg : List InstanceRec
  fs : Fs

/-- The content written to the target's `server.yaml` (lines 1497-1516).
The source reads the existing file (or the default-config copy), replaces
the first `^\s*port:\s*\d+` line or appends one, and rewrites the
`url:` line; no claim reads this content back (after a successful update
the record's explicit `port` field takes priority in `getInstancePort`),
so the model keeps only the fresh-file shape of line 1503 tagged with the
old content. -/
def rewrittenServerYaml (oldContent : Option String) (port : String) : String :=
  match oldContent with
  | none => "url: http://localhost:" ++ port ++ "\nport: " ++ port ++ "\n"
  | some c => c ++ "\nport: " ++ port

/-- Point-update of the filesystem at one path. -/
def writeFile (fs : Fs) (target content : String) : Fs :=
  fun p => if p = target then some content else fs p

/-- The conflict predicate of lines 1482 (and 1425):
`i.id !== id && String(getInstancePort(i)) === newPort`. -/
def updateConflict (fs : Fs) (id newPort : String) (i : InstanceRec) : Bool :=
  i.id != id && getInstancePort fs i == newPort

/-- `/config/:id` with a `port` in the body, Yunzai branch (part_001 lines
1407-1412 and 1473-1523; the GSUID branch at lines 1420-1469 runs the same
guard sequence and also commits `instance.port`): 404 for an unknown id;
`PortConflict` naming the first other instance whose effective port equals
the candidate; only when the target is not currently running, reject if
the OS-level bind test fails; otherwise write the target's `server.yaml`
and commit the explicit `port` field to the registry. `sysPortFree` is the
(pre-resolved) result of `checkPortAvailable(newPort)`. -/
def updateConfigPort (reg : List InstanceRec) (fs : Fs) (running : List String)
    (sysPortFree : Bool) (id : String) (newPort : String) : UpdateOutcome :=
  match reg.find? (fun i => i.id == id) with
  | none => ⟨Except.error UpdateErr.notFound, reg, fs⟩
  | some inst =>
    match reg.find? (updateConflict fs id newPort) with
    | some conflict => ⟨Except.error (UpdateErr.portConflict conflict.name), reg, fs⟩
    | none =>
      if id ∉ running ∧ sysPortFree = false then
        ⟨Except.error UpdateErr.systemPortInUse, reg, fs⟩
      else
        ⟨Except.ok (),
          reg.map (fun i => if i.id == id then { i with port := some newPort } else i),
          writeFile fs (serverYamlPath inst.path)
            (rewrittenServerYaml (fs (serverYamlPath inst.path)) newPort)⟩

/-- Pairwise-distinct effective ports across the registry. -/
def effDistinct (fs : Fs) (reg : List InstanceRec) : Prop :=
  ∀ a ∈ reg, ∀ b ∈ reg, a.id ≠ b.id → getInstancePort fs a ≠ getInstancePort fs b

/-! ### Log history route (part_001 lines 384-387) -/

/-- `/logs/:id`: `res.json({ logs: logHistory[id] || [] })` — a single
unconditional success response; there is no not-found branch. -/
def getLogsRoute (logHistory : List (String × List String)) (id : String) :
    Except String (List String) :=
  Except.ok ((logHistory.lookup id).getD [])

/-! ### Shared-resource (Redis) coordinator
(src/server/routes/dependencies.js lines 266-372) -/

/-- The module-level `redisProcess` handle; process handles are opaque. -/
structure RedisState where
  handle : Option Nat
deriving DecidableEq

/-- Externally visible side effects of the Redis routes, in order. -/
inductive RedisEvent where
  | strayKill
  | spawn (h : Nat)
  | killSignal (h : Nat)
deriving DecidableEq

/-- A Redis route response plus resulting state and side effects. -/
structure RedisOpOutcome where
  success : Bool
  err : Option String
  state : RedisState
  events : List RedisEvent

/-- `/redis/start` (dependencies.js lines 274-356): error without any side
effect if the handle is live; otherwise first `taskkill /F /IM
redis-server.exe` the strays, then resolve the server binary (error if
absent), then spawn and store the handle. `earlyExit` models the
process dying inside the 500 ms verification window (lines 335-347), whose
close callback has already cleared the handle. -/
def redisStart (s : RedisState) (redisPathFound : Bool) (earlyExit : Bool)
    (newHandle : Nat) : RedisOpOutcome :=
  if s.handle.isSome then
    ⟨false, some "Redis is already running", s, []⟩
  else if redisPathFound = false then
    ⟨false, some "Redis not found. Please install Redis first.", s, [RedisEvent.strayKill]⟩
  else if earlyExit then
    ⟨false, some "Redis startup failed", ⟨none⟩,
      [RedisEvent.strayKill, RedisEvent.spawn newHandle]⟩
  else
    ⟨true, none, ⟨some newHandle⟩, [RedisEvent.strayKill, RedisEvent.spawn newHandle]⟩

/-- `/redis/stop` (dependencies.js lines 359-372): error and no side
effect if the handle is not live; otherwise send the termination signal
and clear the handle. -/
def redisStop (s : RedisState) : RedisOpOutcome :=
  match s.handle with
  | none => ⟨false, some "Redis is not running", s, []⟩
  | some h => ⟨true, none, ⟨none⟩, [RedisEvent.killSignal h]⟩

/-! ### Concrete fixtures used by witnesses and counterexamples -/

/-- A registered Yunzai instance used in witnesses. -/
def demoInstanceRec : InstanceRec :=
  ⟨"i1", "alpha", "instances/alpha", some "2536", IType.yunzai⟩

/-- An instance whose registry record has no `port` field, so its
effective port is the config-file value or the default `'2536'`. -/
def alphaRec : InstanceRec := ⟨"1", "alpha", "instances/alpha", none, IType.yunzai⟩

/-- The record `/create` appends for name `beta` with candidate port
`2536` (part_001 lines 766-774). -/
def betaRec : InstanceRec := ⟨"2", "beta", "instances/beta", some "2536", IType.yunzai⟩

/-- A filesystem with no files at all. -/
def emptyFs : Fs := fun _ => none

/-- A GSUID instance with no explicit `port` field. -/
def gsuidInstRec : InstanceRec := ⟨"g1", "gbot", "instances/gbot", none, IType.gsuid⟩

/-- The GSUID config content the repository itself writes for a GSUID
instance (part_001 lines 746-761 and 1449-1458): a JSON object whose
`PORT` field holds the port. -/
def gsuidExampleContent : String :=
  "\x7b\n  \"HOST\": \"0.0.0.0\",\n  \"PORT\": 8765\n\x7d"

/-- A filesystem holding only `gsuidInstRec`'s own GSUID-format config
file; there is no Yunzai-style `server.yaml` anywhere. -/
def gsuidFsExample : Fs := fun p =>
  if p = "instances/gbot/data/config.json" then some gsuidExampleContent else none

/-- Scan a GSUID `config.json` for the port its `"PORT"` field declares:
the literal `"PORT"` followed by optional whitespace, a colon, optional
whitespace and digits. This is the reading of "the instance's on-disk
configuration file, format depending on type" for GSUID instances that
matches the files the repository writes; it is used only to exhibit what
a type-aware resolver would have parsed. -/
def findJsonPortMatch : List Char → Option String
  | [] => none
  | c :: cs =>
    if c = '"' ∧ cs.take 5 = ['P', 'O', 'R', 'T', '"'] then
      match skipJsWhitespace (cs.drop 5) with
      | ':' :: rest =>
        let ds := digitsPrefix (skipJsWhitespace rest)
        if ds = [] then findJsonPortMatch cs else some (String.mk ds)
      | _ => findJsonPortMatch cs
    else findJsonPortMatch cs

/-- A filesystem holding a Yunzai `server.yaml` for `alphaRec` declaring
port 3000. -/
def yamlFsExample : Fs := fun p =>
  if p = "instances/alpha/config/config/server.yaml" then
    some "port: 3000\nhost: 0.0.0.0\n"
  else none

/-! ## Supporting lemmas -/

/-- One bounded append keeps the length at `min (n + 1) cap`. -/
theorem appendBounded_length (cap : Nat) (buf : List String) (line : String)
    (h : buf.length ≤ cap) :
    (appendBounded cap buf line).length = min (buf.length + 1) cap := by
  show (if cap < (buf ++ [line]).length then (buf ++ [line]).tail
      else buf ++ [line]).length = min (buf.length + 1) cap
  rcases Nat.lt_or_ge cap (buf.length + 1) with hc | hc
  · rw [if_pos (by simpa using hc)]
    simp only [List.length_tail, List.length_append, List.length_singleton]
    omega
  · rw [if_neg (by simp; omega)]
    simp only [List.length_append, List.length_singleton]
    omega

/-- Folding bounded appends from a within-capacity buffer: the final length
is the total clipped at the capacity. -/
theorem foldl_appendBounded_length (cap : Nat) (lines : List String) :
    ∀ buf : List String, buf.length ≤ cap →
      (lines.foldl (appendBounded cap) buf).length = min (buf.length + lines.length) cap := by
  induction lines with
  | nil => intro buf h; simpa using (Nat.min_eq_left h).symm
  | cons l ls ih =>
    intro buf h
    have h1 := appendBounded_length cap buf l h
    have h2 : (appendBounded cap buf l).length ≤ cap := by omega
    have h3 := ih (appendBounded cap buf l) h2
    simp only [List.foldl_cons, List.length_cons] at *
    omega

/-- The flag set by the output handlers stays set. -/
theorem foldl_handleOutput_true (events : List OutEvent) :
    events.foldl handleOutput true = true := by
  induction events with
  | nil => rfl
  | cons e es ih => cases e <;> simpa [handleOutput] using ih

/-- The output-handler flag is set exactly by stdout events. -/
theorem foldl_handleOutput_eq (events : List OutEvent) :
    events.foldl handleOutput false = true ↔ ∃ d, OutEvent.stdout d ∈ events := by
  induction events with
  | nil => simp
  | cons e es ih =>
    cases e with
    | stdout d =>
      simp only [List.foldl_cons, handleOutput, foldl_handleOutput_true, true_iff]
      exact ⟨d, List.mem_cons_self _ _⟩
    | stderr d =>
      simp only [List.foldl_cons, handleOutput, ih, List.mem_cons]
      constructor
      · rintro ⟨x, hx⟩; exact ⟨x, Or.inr hx⟩
      · rintro ⟨x, hx | hx⟩
        · cases hx
        · exact ⟨x, hx⟩

/-- Replayed LOG messages of instance `i` extract to exactly the buffer. -/
theorem filterMap_logDataFor_map_self (i : String) (l : List String) :
    (l.map (Msg.log i)).filterMap (logDataFor i) = l := by
  induction l with
  | nil => rfl
  | cons x xs ih => simp [logDataFor, ih]

/-- LOG messages of a different instance extract to nothing. -/
theorem filterMap_logDataFor_map_other (i j : String) (hij : j ≠ i) (l : List String) :
    (l.map (Msg.log j)).filterMap (logDataFor i) = [] := by
  induction l with
  | nil => rfl
  | cons x xs ih => simp [logDataFor, hij, ih]

/-- GLOBAL_LOG messages carry no per-instance LOG payload. -/
theorem filterMap_logDataFor_map_global (i : String) (l : List String) :
    (l.map Msg.globalLog).filterMap (logDataFor i) = [] := by
  induction l with
  | nil => rfl
  | cons x xs ih => simp [logDataFor, ih]

/-- The terminal part of the replay carries no per-instance LOG payload. -/
theorem filterMap_logDataFor_terminal (i : String)
    (tl : List (String × List String)) (topen : String → Bool) :
    (tl.flatMap (fun p =>
        p.2.map (Msg.terminalOutput p.1)
          ++ (if topen p.1 then [Msg.terminalOpened p.1] else []))).filterMap
      (logDataFor i) = [] := by
  induction tl with
  | nil => rfl
  | cons p ps ih =>
    simp only [List.flatMap_cons, List.filterMap_append, ih, List.append_nil]
    have h1 : (p.2.map (Msg.terminalOutput p.1)).filterMap (logDataFor i) = [] := by
      induction p.2 with
      | nil => rfl
      | cons x xs ihx => simp [logDataFor, ihx]
    have h2 : ((if topen p.1 then [Msg.terminalOpened p.1] else []) : List Msg).filterMap
        (logDataFor i) = [] := by
      by_cases h : topen p.1 <;> simp [h, logDataFor]
    simp [h1, h2]

/-- If `i` is not a stored key, the per-instance replay extracts nothing. -/
theorem filterMap_logDataFor_flatMap_not_key (i : String)
    (lh : List (String × List String)) (h : i ∉ lh.map Prod.fst) :
    (lh.flatMap (fun p => p.2.map (Msg.log p.1))).filterMap (logDataFor i) = [] := by
  induction lh with
  | nil => rfl
  | cons p ps ih =>
    simp only [List.map_cons, List.mem_cons, not_or] at h
    simp only [List.flatMap_cons, List.filterMap_append,
      filterMap_logDataFor_map_other i p.1 (fun he => h.1 he.symm), List.nil_append]
    exact ih h.2

/-- With unique keys, the per-instance replay extracts exactly the stored
buffer of `i`, in order. -/
theorem filterMap_logDataFor_flatMap (i : String) (lh : List (String × List String))
    (h : (lh.map Prod.fst).Nodup) :
    (lh.flatMap (fun p => p.2.map (Msg.log p.1))).filterMap (logDataFor i)
      = ((lh.lookup i).getD []) := by
  induction lh with
  | nil => rfl
  | cons p ps ih =>
    simp only [List.map_cons, List.nodup_cons] at h
    by_cases hk : p.1 = i
    · subst hk
      simp only [List.flatMap_cons, List.filterMap_append, filterMap_logDataFor_map_self,
        filterMap_logDataFor_flatMap_not_key p.1 ps h.1, List.append_nil]
      simp [List.lookup]
    · simp only [List.flatMap_cons, List.filterMap_append,
        filterMap_logDataFor_map_other i p.1 hk, List.nil_append, ih h.2]
      have : (i == p.1) = false := by simp [hk, Ne.symm]
      simp [List.lookup, this]

/-- Replayed GLOBAL_LOG messages extract to exactly the global buffer. -/
theorem filterMap_globalData_map (l : List String) :
    (l.map Msg.globalLog).filterMap globalData = l := by
  induction l with
  | nil => rfl
  | cons x xs ih => simp [globalData, ih]

/-- Per-instance LOG replay carries no GLOBAL_LOG payload. -/
theorem filterMap_globalData_flatMap_logs (lh : List (String × List String)) :
    (lh.flatMap (fun p => p.2.map (Msg.log p.1))).filterMap globalData = [] := by
  induction lh with
  | nil => rfl
  | cons p ps ih =>
    simp only [List.flatMap_cons, List.filterMap_append, ih, List.append_nil]
    induction p.2 with
    | nil => rfl
    | cons x xs ihx => simp [globalData, ihx]

/-- The terminal replay carries no GLOBAL_LOG payload. -/
theorem filterMap_globalData_terminal (tl : List (String × List String))
    (topen : String → Bool) :
    (tl.flatMap (fun p =>
        p.2.map (Msg.terminalOutput p.1)
          ++ (if topen p.1 then [Msg.terminalOpened p.1] else []))).filterMap
      globalData = [] := by
  induction tl with
  | nil => rfl
  | cons p ps ih =>
    simp only [List.flatMap_cons, List.filterMap_append, ih, List.append_nil]
    have h1 : (p.2.map (Msg.terminalOutput p.1)).filterMap globalData = [] := by
      induction p.2 with
      | nil => rfl
      | cons x xs ihx => simp [globalData, ihx]
    have h2 : ((if topen p.1 then [Msg.terminalOpened p.1] else []) : List Msg).filterMap
        globalData = [] := by
      by_cases h : topen p.1 <;> simp [h, globalData]
    simp [h1, h2]

/-- `serverYamlPath` is injective: distinct instance roots give distinct
config-file paths. -/
theorem serverYamlPath_inj {p q : String} (h : serverYamlPath p = serverYamlPath q) :
    p = q := by
  unfold serverYamlPath at h
  have hd : p.data ++ "/config/config/server.yaml".data
      = q.data ++ "/config/config/server.yaml".data := by
    have := congrArg String.data h
    simpa [String.data_append] using this
  exact String.ext (List.append_cancel_right hd)

/-- Rewriting the target instance's `server.yaml` does not change any
record rooted at a different path, and never changes a record whose
explicit `port` field is set. -/
theorem getInstancePort_writeFile (fs : Fs) (inst j : InstanceRec) (content : String)
    (h : j.path ≠ inst.path) :
    getInstancePort (writeFile fs (serverYamlPath inst.path) content) j
      = getInstancePort fs j := by
  unfold getInstancePort
  cases j.port with
  | some p => rfl
  | none =>
    have hne : serverYamlPath j.path ≠ serverYamlPath inst.path :=
      fun he => h (serverYamlPath_inj he)
    simp [writeFile, hne]

/-! ## Claim theorems -/

/-- C4: for every buffer key the log buffer length never exceeds its
capacity (1000 for per-instance buffers, 500 for the global and terminal
buffers) after any sequence of appends; below capacity an append just
pushes, and at capacity the single oldest element is evicted — i.e. the
first eviction happens exactly on the (capacity+1)-th append. -/
theorem logbuffer_capacity_invariant :
    (∀ lines : List String, (lines.foldl broadcastLogAppend []).length ≤ 1000)
    ∧ (∀ lines : List String, (lines.foldl broadcastGlobalLogAppend []).length ≤ 500)
    ∧ (∀ lines : List String, (lines.foldl broadcastTerminalAppend []).length ≤ 500)
    ∧ (∀ (cap : Nat) (lines : List String),
        (lines.foldl (appendBounded cap) []).length = min lines.length cap)
    ∧ (∀ (cap : Nat) (buf : List String) (line : String), buf.length < cap →
        appendBounded cap buf line = buf ++ [line])
    ∧ (∀ (cap : Nat) (buf : List String) (line : String), 0 < cap → buf.length = cap →
        appendBounded cap buf line = buf.tail ++ [line]) := by
  have hfold : ∀ (cap : Nat) (lines : List String),
      (lines.foldl (appendBounded cap) []).length = min lines.length cap := by
    intro cap lines
    simpa using foldl_appendBounded_length cap lines [] (by simp)
  refine ⟨fun lines => ?_, fun lines => ?_, fun lines => ?_, hfold, ?_, ?_⟩
  · have := hfold 1000 lines; unfold broadcastLogAppend; omega
  · have := hfold 500 lines; unfold broadcastGlobalLogAppend; omega
  · have := hfold 500 lines; unfold broadcastTerminalAppend; omega
  · intro cap buf line hlt
    show (if cap < (buf ++ [line]).length then (buf ++ [line]).tail
        else buf ++ [line]) = buf ++ [line]
    rw [if_neg (by simp; omega)]
  · intro cap buf line hpos hlen
    cases buf with
    | nil => simp at hlen; omega
    | cons c t =>
      show (if cap < ((c :: t) ++ [line]).length then ((c :: t) ++ [line]).tail
          else (c :: t) ++ [line]) = (c :: t).tail ++ [line]
      rw [if_pos (by simp at hlen ⊢; omega)]
      simp

/-- C4 witness: with capacity 2, an append below capacity keeps the old
lines, and an append at capacity evicts exactly the oldest line. -/
theorem logbuffer_capacity_invariant_witness :
    appendBounded 2 ["a", "b"] "c" = ["b", "c"]
    ∧ appendBounded 2 ["a"] "b" = ["a", "b"] := by
  exact ⟨logbuffer_capacity_invariant.2.2.2.2.2 2 ["a", "b"] "c" (by decide) rfl,
    logbuffer_capacity_invariant.2.2.2.2.1 2 ["a"] "b" (by decide)⟩

/-- C5: for a registered instance, `/start/:id` with a live
`runningProcesses` entry fails with `Already running`, spawns nothing and
leaves the running table unchanged; with no live entry and a missing root
path it fails with the path-not-found error, again without spawning. -/
theorem start_route_guards :
    ∀ (reg : List InstanceRec) (pathExists : String → Bool) (running : List String)
      (id : String) (inst : InstanceRec),
      reg.find? (fun i => i.id == id) = some inst →
      (id ∈ running →
        startRoute reg pathExists running id
          = ⟨Except.error StartErr.alreadyRunning, running, false⟩)
      ∧ (id ∉ running → pathExists inst.path = false →
        startRoute reg pathExists running id
          = ⟨Except.error StartErr.pathMissing, running, false⟩) := by
  intro reg pe running id inst hfind
  constructor
  · intro hmem
    simp only [startRoute, hfind]
    rw [if_pos hmem]
  · intro hmem hpath
    simp only [startRoute, hfind]
    rw [if_neg hmem, if_pos hpath]

/-- C5 witness: a registered instance that is already running is rejected
without a spawn, and one with a missing root path is rejected without a
spawn. -/
theorem start_route_guards_witness :
    startRoute [demoInstanceRec] (fun _ => true) ["i1"] "i1"
      = ⟨Except.error StartErr.alreadyRunning, ["i1"], false⟩
    ∧ startRoute [demoInstanceRec] (fun _ => false) [] "i1"
      = ⟨Except.error StartErr.pathMissing, [], false⟩ := by
  exact ⟨(start_route_guards [demoInstanceRec] (fun _ => true) ["i1"] "i1"
      demoInstanceRec rfl).1 (by simp),
    (start_route_guards [demoInstanceRec] (fun _ => false) [] "i1"
      demoInstanceRec rfl).2 (by simp) rfl⟩

/-- C6 counterexample: the code flips the status to `running` on the first
stdout data event even when the chunk trims to the empty string (so no
non-empty output line exists), and a non-empty stderr line alone never
flips the status. Both directions of the claimed "first non-empty output
line, and only then" trigger are therefore false. -/
theorem status_flip_counterexample :
    statusAfter [OutEvent.stdout " "] = InstStatus.running
    ∧ trimmedText (OutEvent.stdout " ") = ""
    ∧ statusAfter [OutEvent.stderr "boot error"] = InstStatus.starting
    ∧ trimmedText (OutEvent.stderr "boot error") = "boot error" := by
  refine ⟨rfl, by decide, rfl, by decide⟩

/-- C6 amended: the `starting → running` transition is triggered by the
first stdout data event — whether or not it trims to a non-empty line —
and by nothing else; in particular stderr output never triggers it, and a
process that never emits stdout data remains `starting` indefinitely. -/
theorem status_flip_first_stdout :
    ∀ events : List OutEvent,
      (statusAfter events = InstStatus.running ↔ ∃ d, OutEvent.stdout d ∈ events)
      ∧ (statusAfter events = InstStatus.starting ↔ ∀ d, OutEvent.stdout d ∉ events) := by
  intro events
  have h := foldl_handleOutput_eq events
  constructor
  · constructor
    · intro hs
      apply h.mp
      by_contra hb
      have hf : events.foldl handleOutput false = false := by
        cases hfb : events.foldl handleOutput false
        · rfl
        · exact absurd hfb hb
      unfold statusAfter at hs
      rw [hf] at hs
      simp at hs
    · intro he
      unfold statusAfter
      rw [h.mpr he]
      simp
  · constructor
    · intro hs d hd
      have hr : statusAfter events = InstStatus.running := by
        unfold statusAfter
        rw [h.mpr ⟨d, hd⟩]
        simp
      rw [hs] at hr
      simp at hr
    · intro he
      unfold statusAfter
      have hf : events.foldl handleOutput false = false := by
        cases hfb : events.foldl handleOutput false
        · rfl
        · obtain ⟨d, hd⟩ := h.mp hfb
          exact absurd hd (he d)
      rw [hf]
      simp

/-- C8: `/stop/:id` with no live entry fails with `Not running` and
changes nothing at all; with a live entry it succeeds, synchronously
removes exactly that entry (all other instances' entries, the keep-alive
flag and the Redis stop-request count are untouched), kills only that
instance's process tree, and emits the `stopped` status event and the
textual log marker before returning. -/
theorem stop_route_behaviour :
    ∀ (s : SupState) (id : String),
      (id ∉ s.running →
        stopRoute s id = ⟨Except.error StopErr.notRunning, s, [], []⟩)
      ∧ (id ∈ s.running → s.running.Nodup →
        (stopRoute s id).result = Except.ok ()
        ∧ id ∉ (stopRoute s id).state.running
        ∧ (∀ j, j ≠ id → ((j ∈ (stopRoute s id).state.running) ↔ j ∈ s.running))
        ∧ (stopRoute s id).state.keepAlive = s.keepAlive
        ∧ (stopRoute s id).state.redisStopRequests = s.redisStopRequests
        ∧ (stopRoute s id).killed = [id]
        ∧ (stopRoute s id).events
            = [Msg.status id "stopped", Msg.log id "--- Instance Stopped ---"]) := by
  intro s id
  constructor
  · intro hmem
    unfold stopRoute
    rw [if_neg hmem]
  · intro hmem hnd
    have hs : stopRoute s id
        = ⟨Except.ok (), { s with running := s.running.erase id }, [id],
          [Msg.status id "stopped", Msg.log id "--- Instance Stopped ---"]⟩ := by
      unfold stopRoute
      rw [if_pos hmem]
    rw [hs]
    exact ⟨rfl, hnd.not_mem_erase, fun j hj => List.mem_erase_of_ne hj, rfl, rfl, rfl, rfl⟩

/-- C8 witness: stopping a non-running id is rejected with every field
unchanged; stopping a running id succeeds and leaves the other running
instance in place. -/
theorem stop_route_behaviour_witness :
    stopRoute ⟨["x"], false, 0⟩ "z"
      = ⟨Except.error StopErr.notRunning, ⟨["x"], false, 0⟩, [], []⟩
    ∧ (stopRoute ⟨["x", "y"], false, 0⟩ "x").result = Except.ok ()
    ∧ ("y" ∈ (stopRoute ⟨["x", "y"], false, 0⟩ "x").state.running ↔ "y" ∈ ["x", "y"]) := by
  refine ⟨(stop_route_behaviour ⟨["x"], false, 0⟩ "z").1 (by simp),
    ((stop_route_behaviour ⟨["x", "y"], false, 0⟩ "x").2 (by simp) (by simp)).1,
    (((stop_route_behaviour ⟨["x", "y"], false, 0⟩ "x").2 (by simp)
      (by simp)).2.2.1 "y" (by simp))⟩

/-- C9: at most one Redis process handle exists: `/redis/start` with a
live handle errors without spawning or killing anything and leaves the
handle unchanged; with no handle it first force-kills stray same-named
processes and only then spawns; `/redis/stop` with no handle errors and
changes nothing, and with a live handle sends exactly one termination
signal and clears the handle. -/
theorem redis_singleton_lifecycle :
    ∀ (s : RedisState) (pf ee : Bool) (h : Nat),
      (∀ ph, s.handle = some ph →
        redisStart s pf ee h = ⟨false, some "Redis is already running", s, []⟩
        ∧ redisStop s = ⟨true, none, ⟨none⟩, [RedisEvent.killSignal ph]⟩)
      ∧ (s.handle = none →
        redisStop s = ⟨false, some "Redis is not running", s, []⟩
        ∧ (pf = true → ee = false →
          redisStart s pf ee h
            = ⟨true, none, ⟨some h⟩, [RedisEvent.strayKill, RedisEvent.spawn h]⟩)) := by
  intro s pf ee h
  constructor
  · intro ph hph
    constructor
    · simp [redisStart, hph]
    · simp [redisStop, hph]
  · intro hn
    constructor
    · simp [redisStop, hn]
    · intro hpf hee
      simp [redisStart, hn, hpf, hee]

/-- C9 witness: both start branches and both stop branches at concrete
states. -/
theorem redis_singleton_lifecycle_witness :
    redisStart ⟨some 7⟩ true false 9 = ⟨false, some "Redis is already running", ⟨some 7⟩, []⟩
    ∧ redisStop ⟨some 7⟩ = ⟨true, none, ⟨none⟩, [RedisEvent.killSignal 7]⟩
    ∧ redisStop ⟨none⟩ = ⟨false, some "Redis is not running", ⟨none⟩, []⟩
    ∧ redisStart ⟨none⟩ true false 9
        = ⟨true, none, ⟨some 9⟩, [RedisEvent.strayKill, RedisEvent.spawn 9]⟩ := by
  exact ⟨((redis_singleton_lifecycle ⟨some 7⟩ true false 9).1 7 rfl).1,
    ((redis_singleton_lifecycle ⟨some 7⟩ true false 9).1 7 rfl).2,
    ((redis_singleton_lifecycle ⟨none⟩ true false 9).2 rfl).1,
    ((redis_singleton_lifecycle ⟨none⟩ true false 9).2 rfl).2 rfl rfl⟩

/-- C10: `/logs/:id` always succeeds — for an id with no stored history
(including unknown ids) it returns the empty list rather than a not-found
error, and for an id with history it returns exactly the buffer's current
contents. -/
theorem logs_route_total :
    ∀ (logHistory : List (String × List String)) (id : String),
      (logHistory.lookup id = none → getLogsRoute logHistory id = Except.ok [])
      ∧ (∀ contents, logHistory.lookup id = some contents →
          getLogsRoute logHistory id = Except.ok contents)
      ∧ ∃ v, getLogsRoute logHistory id = Except.ok v := by
  intro lh id
  refine ⟨fun h => ?_, fun c h => ?_, ⟨_, rfl⟩⟩
  · unfold getLogsRoute
    rw [h]
    rfl
  · unfold getLogsRoute
    rw [h]
    rfl

/-- C10 witness: an unknown id yields an empty success, a known id yields
its stored lines. -/
theorem logs_route_total_witness :
    getLogsRoute [("known", ["l1"])] "unknown" = Except.ok []
    ∧ getLogsRoute [("known", ["l1"])] "known" = Except.ok ["l1"] := by
  exact ⟨(logs_route_total [("known", ["l1"])] "unknown").1 rfl,
    (logs_route_total [("known", ["l1"])] "known").2.1 ["l1"] rfl⟩

/-- C1: the exit callback issues a Redis stop request exactly when, after
it removes the instance's `runningProcesses` entry, the running count is 0
and the persisted keep-alive flag is false; and in a run with two
instances, stopping the first (stop route plus its exit callback) issues
no stop request while stopping the second issues exactly one. -/
theorem redis_autostop_on_exit :
    (∀ (s : SupState) (id : String),
      (closeHandler s id).running = s.running.erase id
      ∧ (closeHandler s id).keepAlive = s.keepAlive
      ∧ (closeHandler s id).redisStopRequests =
          (if (s.running.erase id).length = 0 ∧ s.keepAlive = false
            then s.redisStopRequests + 1 else s.redisStopRequests))
    ∧ (∀ (a b : String) (n : Nat), a ≠ b →
        (closeHandler ((stopRoute ⟨[a, b], false, n⟩ a).state) a).redisStopRequests = n
        ∧ (closeHandler ((stopRoute
              (closeHandler ((stopRoute ⟨[a, b], false, n⟩ a).state) a) b).state)
            b).redisStopRequests = n + 1) := by
  constructor
  · intro s id
    simp only [closeHandler]
    by_cases h : (s.running.erase id).length = 0 ∧ s.keepAlive = false
    · rw [if_pos h, if_pos h]
      exact ⟨rfl, rfl, rfl⟩
    · rw [if_neg h, if_neg h]
      exact ⟨rfl, rfl, rfl⟩
  · intro a b n hab
    have hmem1 : a ∈ ([a, b] : List String) := List.mem_cons_self _ _
    have e1 : ([a, b] : List String).erase a = [b] := List.erase_cons_head a [b]
    have h1 : (stopRoute ⟨[a, b], false, n⟩ a).state = ⟨[b], false, n⟩ := by
      unfold stopRoute
      rw [if_pos hmem1]
      simp [e1]
    have e2 : ([b] : List String).erase a = [b] :=
      List.erase_of_not_mem (by
        simp only [List.mem_singleton]
        exact fun he => hab he)
    have h2 : closeHandler ⟨[b], false, n⟩ a = ⟨[b], false, n⟩ := by
      simp [closeHandler, e2]
    have hmem2 : b ∈ ([b] : List String) := List.mem_cons_self _ _
    have h3 : (stopRoute ⟨[b], false, n⟩ b).state = ⟨[], false, n⟩ := by
      unfold stopRoute
      rw [if_pos hmem2]
      simp
    have h4 : closeHandler ⟨[], false, n⟩ b = ⟨[], false, n + 1⟩ := by
      simp [closeHandler]
    rw [h1, h2, h3, h4]
    exact ⟨rfl, rfl⟩

/-- C1 witness: with instances `a` and `b` both running and keep-alive
false, stopping `a` (route plus exit callback) issues no Redis stop
request, and then stopping `b` issues exactly one. -/
theorem redis_autostop_on_exit_witness :
    (closeHandler ((stopRoute ⟨["a", "b"], false, 0⟩ "a").state) "a").redisStopRequests = 0
    ∧ (closeHandler ((stopRoute
          (closeHandler ((stopRoute ⟨["a", "b"], false, 0⟩ "a").state) "a") "b").state)
        "b").redisStopRequests = 0 + 1 :=
  ⟨(redis_autostop_on_exit.2 "a" "b" 0 (by decide)).1,
    (redis_autostop_on_exit.2 "a" "b" 0 (by decide)).2⟩

/-- C2: a newly connected observer's session delivers, for every instance
and for the global buffer, exactly the buffer's stored contents in
original append order strictly before any line broadcast after the
subscription, with nothing skipped and no replayed line re-delivered as
live. -/
theorem observer_replay_complete :
    ∀ (gh : List String) (lh tl : List (String × List String))
      (topen : String → Bool) (live : List Msg) (i : String),
      (lh.map Prod.fst).Nodup →
      (observerSession gh lh tl topen live).filterMap (logDataFor i)
        = ((lh.lookup i).getD []) ++ live.filterMap (logDataFor i)
      ∧ (observerSession gh lh tl topen live).filterMap globalData
        = gh ++ live.filterMap globalData := by
  intro gh lh tl topen live i hnd
  unfold observerSession replayOnConnect
  constructor
  · simp only [List.cons_append, List.filterMap_cons, List.append_assoc,
      List.filterMap_append, logDataFor]
    rw [filterMap_logDataFor_map_global, filterMap_logDataFor_flatMap i lh hnd,
      filterMap_logDataFor_terminal]
    simp
  · simp only [List.cons_append, List.filterMap_cons, List.append_assoc,
      List.filterMap_append, globalData]
    rw [filterMap_globalData_map, filterMap_globalData_flatMap_logs,
      filterMap_globalData_terminal]
    simp

/-- C2 witness: a concrete session with one instance buffer, one terminal
buffer and a global buffer replays everything in order before the live
lines. -/
theorem observer_replay_complete_witness :
    (observerSession ["g1"] [("i1", ["a", "b"])] [("t1", ["t"])] (fun _ => false)
        [Msg.log "i1" "c", Msg.globalLog "g2"]).filterMap (logDataFor "i1")
      = ["a", "b", "c"]
    ∧ (observerSession ["g1"] [("i1", ["a", "b"])] [("t1", ["t"])] (fun _ => false)
        [Msg.log "i1" "c", Msg.globalLog "g2"]).filterMap globalData
      = ["g1", "g2"] := by
  have h := observer_replay_complete ["g1"] [("i1", ["a", "b"])] [("t1", ["t"])]
    (fun _ => false) [Msg.log "i1" "c", Msg.globalLog "g2"] "i1" (by simp)
  exact ⟨by rw [h.1]; rfl, by rw [h.2]; rfl⟩

/-- C3 counterexample: `/create` compares the candidate port only against
other records' explicit `port` fields, so creating `beta` with port 2536
succeeds although the already-registered `alpha` (no explicit port, no
config file) has effective port 2536 — after the successful create two
distinct instances share one effective port, refuting the claimed
invariant for create. -/
theorem create_effective_port_counterexample :
    createRoute [alphaRec] false "2" "beta" "2536" IType.yunzai
      = Except.ok [alphaRec, betaRec]
    ∧ getInstancePort emptyFs alphaRec = "2536"
    ∧ getInstancePort emptyFs betaRec = "2536"
    ∧ alphaRec.id ≠ betaRec.id
    ∧ ¬ effDistinct emptyFs [alphaRec, betaRec] := by
  refine ⟨rfl, rfl, rfl, by decide, ?_⟩
  intro h
  exact h alphaRec (by simp) betaRec (by simp) (by decide) rfl

/-- C3 amended: the config-update route rejects a candidate port equal to
any other instance's effective port with `PortConflict` naming that
instance, skips the OS-level bind check exactly when the target instance
is itself running, and a successful update preserves pairwise-distinct
effective ports; the create route, however, checks only explicit port
fields (see the counterexample), so the invariant is guaranteed only
across config-updates. -/
theorem config_update_port_uniqueness :
    ∀ (reg : List InstanceRec) (fs : Fs) (running : List String) (sysPortFree : Bool)
      (id newPort : String) (inst : InstanceRec),
      reg.find? (fun i => i.id == id) = some inst →
      (∀ c, reg.find? (updateConflict fs id newPort) = some c →
        updateConfigPort reg fs running sysPortFree id newPort
          = ⟨Except.error (UpdateErr.portConflict c.name), reg, fs⟩
        ∧ c.id ≠ id ∧ getInstancePort fs c = newPort)
      ∧ (id ∈ running →
        updateConfigPort reg fs running sysPortFree id newPort
          = updateConfigPort reg fs running true id newPort)
      ∧ (id ∉ running → sysPortFree = false →
        reg.find? (updateConflict fs id newPort) = none →
        updateConfigPort reg fs running sysPortFree id newPort
          = ⟨Except.error UpdateErr.systemPortInUse, reg, fs⟩)
      ∧ (∀ reg2 fs2,
          updateConfigPort reg fs running sysPortFree id newPort
            = ⟨Except.ok (), reg2, fs2⟩ →
          effDistinct fs reg →
          (∀ j ∈ reg, j.id ≠ id → j.path ≠ inst.path) →
          effDistinct fs2 reg2) := by
  intro reg fs running spf id np inst hfind
  refine ⟨?_, ?_, ?_, ?_⟩
  · intro c hc
    have hprop : updateConflict fs id np c = true := List.find?_some hc
    simp only [updateConflict, Bool.and_eq_true, bne_iff_ne, beq_iff_eq] at hprop
    refine ⟨?_, hprop.1, hprop.2⟩
    simp only [updateConfigPort, hfind, hc]
  · intro hmem
    simp only [updateConfigPort, hfind]
    cases hc : reg.find? (updateConflict fs id np) with
    | some c => rfl
    | none =>
      rw [if_neg (fun hcontra => hcontra.1 hmem),
        if_neg (fun hcontra : id ∉ running ∧ true = false => hcontra.1 hmem)]
  · intro hnmem hspf hcnone
    simp only [updateConfigPort, hfind, hcnone]
    rw [if_pos ⟨hnmem, hspf⟩]
  · intro reg2 fs2 heq hdist hpaths
    simp only [updateConfigPort, hfind] at heq
    cases hc : reg.find? (updateConflict fs id np) with
    | some c =>
      rw [hc] at heq
      simp at heq
    | none =>
      rw [hc] at heq
      by_cases hif : id ∉ running ∧ spf = false
      · rw [if_pos hif] at heq
        simp at heq
      · rw [if_neg hif] at heq
        have hreg2 : reg2
            = reg.map (fun i => if i.id == id then { i with port := some np } else i) :=
          (congrArg UpdateOutcome.reg heq).symm
        have hfs2 : fs2 = writeFile fs (serverYamlPath inst.path)
            (rewrittenServerYaml (fs (serverYamlPath inst.path)) np) :=
          (congrArg UpdateOutcome.fs heq).symm
        subst hreg2
        subst hfs2
        have hnoconf : ∀ j ∈ reg, j.id ≠ id → getInstancePort fs j ≠ np := by
          intro j hj hjid
          have hne := List.find?_eq_none.mp hc j hj
          simp only [updateConflict, Bool.and_eq_true, bne_iff_ne, beq_iff_eq, not_and] at hne
          exact hne hjid
        have hstab : ∀ j : InstanceRec, j.path ≠ inst.path →
            getInstancePort (writeFile fs (serverYamlPath inst.path)
              (rewrittenServerYaml (fs (serverYamlPath inst.path)) np)) j
              = getInstancePort fs j := by
          intro j hp
          exact getInstancePort_writeFile fs inst j _ hp
        intro a2 ha2 b2 hb2 hid2
        obtain ⟨a, ha, rfl⟩ := List.mem_map.mp ha2
        obtain ⟨b, hb, rfl⟩ := List.mem_map.mp hb2
        have happ : ∀ i : InstanceRec, i.id = id →
            (if (i.id == id) = true then ({ i with port := some np } : InstanceRec) else i)
              = { i with port := some np } := by
          intro i hi
          simp [hi]
        have happ2 : ∀ i : InstanceRec, i.id ≠ id →
            (if (i.id == id) = true then ({ i with port := some np } : InstanceRec) else i)
              = i := by
          intro i hi
          simp [hi]
        by_cases hA : a.id = id <;> by_cases hB : b.id = id
        · exact absurd (by rw [happ a hA, happ b hB]; simp [hA, hB]) hid2
        · rw [happ a hA, happ2 b hB]
          have hbeff := hstab b (hpaths b hb hB)
          have haeff : getInstancePort (writeFile fs (serverYamlPath inst.path)
              (rewrittenServerYaml (fs (serverYamlPath inst.path)) np))
              { a with port := some np } = np := rfl
          rw [haeff, hbeff]
          exact fun he => hnoconf b hb hB he.symm
        · rw [happ2 a hA, happ b hB]
          have haeff := hstab a (hpaths a ha hA)
          have hbeff : getInstancePort (writeFile fs (serverYamlPath inst.path)
              (rewrittenServerYaml (fs (serverYamlPath inst.path)) np))
              { b with port := some np } = np := rfl
          rw [hbeff, haeff]
          exact hnoconf a ha hA
        · rw [happ2 a hA, happ2 b hB]
          rw [hstab a (hpaths a ha hA), hstab b (hpaths b hb hB)]
          refine hdist a ha b hb ?_
          rw [happ2 a hA, happ2 b hB] at hid2
          exact hid2

/-- C3 amended witness: a conflicting candidate is rejected naming the
offending instance `beta`; the bind check is ignored when the target is
running; and a successful update leaves the registry with pairwise
distinct effective ports. -/
theorem config_update_port_uniqueness_witness :
    updateConfigPort [alphaRec, betaRec] emptyFs [] true "1" "2536"
      = ⟨Except.error (UpdateErr.portConflict "beta"), [alphaRec, betaRec], emptyFs⟩
    ∧ updateConfigPort [betaRec] emptyFs ["2"] false "2" "4000"
      = updateConfigPort [betaRec] emptyFs ["2"] true "2" "4000"
    ∧ effDistinct
        (writeFile emptyFs (serverYamlPath "instances/beta")
          (rewrittenServerYaml none "4000"))
        [⟨"2", "beta", "instances/beta", some "4000", IType.yunzai⟩] := by
  refine ⟨?_, ?_, ?_⟩
  · exact ((config_update_port_uniqueness [alphaRec, betaRec] emptyFs [] true "1" "2536"
      alphaRec rfl).1 betaRec rfl).1
  · exact (config_update_port_uniqueness [betaRec] emptyFs ["2"] false "2" "4000"
      betaRec rfl).2.1 (by simp)
  · exact (config_update_port_uniqueness [betaRec] emptyFs [] true "2" "4000"
      betaRec rfl).2.2.2
      [⟨"2", "beta", "instances/beta", some "4000", IType.yunzai⟩]
      (writeFile emptyFs (serverYamlPath "instances/beta")
        (rewrittenServerYaml none "4000"))
      rfl
      (by
        intro a ha b hb hab
        simp only [List.mem_singleton] at ha hb
        subst ha
        subst hb
        exact absurd rfl hab)
      (by
        intro j hj hjid
        simp only [List.mem_singleton] at hj
        subst hj
        exact absurd rfl hjid)

/-- C7 counterexample: a GSUID instance with no explicit port field and an
on-disk GSUID-format config declaring PORT 8765 resolves to `'2536'` —
the config file the repository itself writes for this type is not parsed,
and the result is identical to the Yunzai outcome, so neither the parse
format nor the default is type-specific. -/
theorem effective_port_type_counterexample :
    getInstancePort gsuidFsExample gsuidInstRec = "2536"
    ∧ gsuidInstRec.port = none
    ∧ gsuidInstRec.type = IType.gsuid
    ∧ gsuidFsExample "instances/gbot/data/config.json" = some gsuidExampleContent
    ∧ findJsonPortMatch gsuidExampleContent.data = some "8765"
    ∧ getInstancePort gsuidFsExample { gsuidInstRec with type := IType.yunzai }
        = "2536" := by
  refine ⟨rfl, rfl, rfl, rfl, by decide, rfl⟩

/-- C7 amended: `getInstancePort` resolves, for every instance type alike:
the record's explicit port field if set; otherwise the first `port:`
number parsed from the Yunzai-style `config/config/server.yaml` under the
instance's root; otherwise the fixed default `'2536'` — the declared type
is never consulted. -/
theorem effective_port_resolution :
    ∀ (fs : Fs) (inst : InstanceRec),
      (∀ p, inst.port = some p → getInstancePort fs inst = p)
      ∧ (inst.port = none → ∀ c p, fs (serverYamlPath inst.path) = some c →
          findPortMatch c.data = some p → getInstancePort fs inst = p)
      ∧ (inst.port = none → ∀ c, fs (serverYamlPath inst.path) = some c →
          findPortMatch c.data = none → getInstancePort fs inst = "2536")
      ∧ (inst.port = none → fs (serverYamlPath inst.path) = none →
          getInstancePort fs inst = "2536")
      ∧ (∀ t, getInstancePort fs { inst with type := t } = getInstancePort fs inst) := by
  intro fs inst
  refine ⟨?_, ?_, ?_, ?_, fun t => rfl⟩
  · intro p hp
    simp only [getInstancePort, hp]
  · intro hn c p hc hm
    simp only [getInstancePort, hn, hc, hm]
  · intro hn c hc hm
    simp only [getInstancePort, hn, hc, hm]
  · intro hn hc
    simp only [getInstancePort, hn, hc]

/-- C7 amended witness: each resolution stage at a concrete input — the
explicit field wins for `beta`, `alpha` parses 3000 from its
`server.yaml`, and with no file at all the default `'2536'` applies. -/
theorem effective_port_resolution_witness :
    getInstancePort emptyFs betaRec = "2536"
    ∧ getInstancePort yamlFsExample alphaRec = "3000"
    ∧ getInstancePort emptyFs alphaRec = "2536"
    ∧ getInstancePort gsuidFsExample { gsuidInstRec with type := IType.yunzai }
        = getInstancePort gsuidFsExample gsuidInstRec := by
  refine ⟨(effective_port_resolution emptyFs betaRec).1 "2536" rfl,
    (effective_port_resolution yamlFsExample alphaRec).2.1 rfl
      "port: 3000\nhost: 0.0.0.0\n" "3000" (by decide) (by decide),
    (effective_port_resolution emptyFs alphaRec).2.2.2.1 rfl (by decide),
    (effective_port_resolution gsuidFsExample gsuidInstRec).2.2.2.2 IType.yunzai⟩

end GravityLauncher
